import Mathlib

/-!
Verification of the license-server License Lifecycle and Cryptographic
Validation Engine against its specification.

The repository ships the admin frontend (src/frontend), the production
Dockerfile and migration/deploy documents; the backend service itself
(License Store, Activation Service, Validation Service, Signer) is not
part of the available sources, so those components are modelled from the
specification (spec.md sections 3, 4.2, 4.3, 4.4 and 6), as indicated on
each definition.  Frontend behaviour (admin action buttons, the merged
validations view, the published endpoint list) and the Dockerfile health
check are embedded directly from the source files.
-/

namespace LicenseServer

/-- Modelled from the spec (section 3): the closed plan enumeration. -/
inductive Plan
  | starter
  | professional
  | enterprise
  | unlimited
deriving DecidableEq, Repr

/-- Modelled from the spec (section 3): license status values.
`expired` may also arise as a derived (read-time) status. -/
inductive Status
  | pending
  | active
  | suspended
  | revoked
  | expired
deriving DecidableEq, Repr

/-- Modelled from the spec (section 3): the License row.  Timestamps are
abstracted as naturals. -/
structure License where
  id : Nat
  license_key : String
  client_id : Nat
  plan : Plan
  status : Status
  issued_at : Nat
  expires_at : Option Nat
  activated_at : Option Nat
  hardware_id : Option String
  notes : String
deriving DecidableEq, Repr

/-- Modelled from the spec (section 3 lifecycle): the administrative layer
creates a license in `pending` status with no hardware binding and no
activation timestamp. -/
def mkLicense (id : Nat) (key : String) (client_id : Nat) (plan : Plan)
    (issued_at : Nat) (expires_at : Option Nat) (notes : String) : License :=
  { id := id, license_key := key, client_id := client_id, plan := plan,
    status := .pending, issued_at := issued_at, expires_at := expires_at,
    activated_at := none, hardware_id := none, notes := notes }

/-- Modelled from the spec (section 7): the structured error kinds. -/
inductive LicenseError
  | NotFound
  | AlreadyActivatedElsewhere
  | HardwareMismatch
  | Suspended
  | Revoked
  | Expired
  | NotYetActivated
  | InternalFailure
deriving DecidableEq, Repr

/-- Modelled from the spec (section 7): the per-error message recorded in
the audit trail; `NotFound` is the deliberately generic message. -/
def errorMessage : LicenseError → String
  | .NotFound => "invalid license"
  | .AlreadyActivatedElsewhere => "already activated on another device"
  | .HardwareMismatch => "hardware mismatch"
  | .Suspended => "suspended"
  | .Revoked => "revoked"
  | .Expired => "expired"
  | .NotYetActivated => "not yet activated"
  | .InternalFailure => "internal failure"

/-- Modelled from the spec (section 3): validation record types. -/
inductive VType
  | activation
  | heartbeat
  | check
deriving DecidableEq, Repr

/-- Modelled from the spec (section 3): the append-only audit row. -/
structure ValidationRecord where
  license_id : Nat
  validation_type : VType
  success : Bool
  error_message : Option String
  ip_address : String
  hardware_id : String
  created_at : Nat
deriving DecidableEq, Repr

/-- Modelled from the spec (sections 4.3 and 4.5): the canonical payload
the Signer covers — license key, client id, plan, expiry and hardware id
(plan limits and features are a fixed function of `plan`). -/
structure Payload where
  license_key : String
  client_id : Nat
  plan : Plan
  expires_at : Option Nat
  hardware_id : String
deriving DecidableEq, Repr

/-- Modelled from the spec (section 4.5): the canonical payload built from
the current license row and the bound hardware identity. -/
def canonicalPayload (l : License) (hw : String) : Payload :=
  { license_key := l.license_key, client_id := l.client_id, plan := l.plan,
    expires_at := l.expires_at, hardware_id := hw }

/-- An expiry timestamp is in the past relative to `now`. -/
def isPast (expires_at : Option Nat) (now : Nat) : Bool :=
  match expires_at with
  | some e => decide (e < now)
  | none => false

/-- Modelled from the spec (section 4.2): the derived status on every read
path — if `expires_at` is in the past and the stored status is `active`
or `suspended`, the effective status is `expired`; the stored status is
returned unchanged otherwise. -/
def effectiveStatus (l : License) (now : Nat) : Status :=
  if isPast l.expires_at now = true ∧ (l.status = .active ∨ l.status = .suspended) then
    .expired
  else
    l.status

/-- Modelled from the spec (section 4.3): the per-license core of
`Activate` — the returned license is the (possibly updated) row and the
outcome is the signed payload or the rejection. -/
def activateL (l : License) (hw : String) (now : Nat) :
    License × Except LicenseError Payload :=
  match effectiveStatus l now with
  | .pending =>
      let l2 := { l with status := .active, hardware_id := some hw,
                         activated_at := some now }
      (l2, .ok (canonicalPayload l2 hw))
  | .active =>
      if l.hardware_id = some hw then
        (l, .ok (canonicalPayload l hw))
      else
        (l, .error .AlreadyActivatedElsewhere)
  | .suspended => (l, .error .Suspended)
  | .revoked => (l, .error .Revoked)
  | .expired => (l, .error .Expired)

/-- Modelled from the spec (section 4.4 steps 2 to 4): the per-license
core of `Validate`; the license row is never written. -/
def validateL (l : License) (hw : String) (now : Nat) :
    Except LicenseError Payload :=
  match effectiveStatus l now with
  | .active =>
      if l.hardware_id = some hw then
        .ok (canonicalPayload l hw)
      else
        .error .HardwareMismatch
  | .pending => .error .NotYetActivated
  | .suspended => .error .Suspended
  | .revoked => .error .Revoked
  | .expired => .error .Expired

/-- Whether a call outcome is a success. -/
def outcomeSuccess : Except LicenseError Payload → Bool
  | .ok _ => true
  | .error _ => false

/-- The audit error message of an outcome: present exactly on failure. -/
def outcomeError : Except LicenseError Payload → Option String
  | .ok _ => none
  | .error e => some (errorMessage e)

instance {ε α : Type} [DecidableEq ε] [DecidableEq α] :
    DecidableEq (Except ε α) := fun a b =>
  match a, b with
  | .ok x, .ok y =>
      if h : x = y then isTrue (by rw [h]) else
        isFalse (fun hh => h (Except.ok.injEq x y ▸ hh))
  | .error x, .error y =>
      if h : x = y then isTrue (by rw [h]) else
        isFalse (fun hh => h (Except.error.injEq x y ▸ hh))
  | .ok _, .error _ => isFalse (fun hh => Except.noConfusion hh)
  | .error _, .ok _ => isFalse (fun hh => Except.noConfusion hh)

/-- Modelled from the spec (sections 3 and 6): durable state — License
rows plus the append-only ValidationRecord rows. -/
structure Store where
  licenses : List License
  records : List ValidationRecord
deriving DecidableEq, Repr

/-- Modelled from the spec (section 4.3): resolve a license key. -/
def findLicense (s : Store) (key : String) : Option License :=
  s.licenses.find? (fun l => l.license_key == key)

/-- Replace the license row with the given id. -/
def updateLicense (s : Store) (lid : Nat) (l2 : License) : Store :=
  { s with licenses := s.licenses.map (fun x => if x.id = lid then l2 else x) }

/-- Append one audit row. -/
def appendRecord (s : Store) (r : ValidationRecord) : Store :=
  { s with records := s.records ++ [r] }

/-- The audit row written for one resolved activation/validation call. -/
def mkRecord (lid : Nat) (kind : VType) (out : Except LicenseError Payload)
    (ip hw : String) (now : Nat) : ValidationRecord :=
  { license_id := lid, validation_type := kind, success := outcomeSuccess out,
    error_message := outcomeError out, ip_address := ip, hardware_id := hw,
    created_at := now }

/-- Modelled from the spec (section 4.3): the Activation Service.  An
unresolvable key returns the generic error and writes nothing; a resolved
call writes the license row only when it changed, and always appends
exactly one audit record. -/
def Activate (s : Store) (key hw ip : String) (now : Nat) :
    Store × Except LicenseError Payload :=
  match findLicense s key with
  | none => (s, .error .NotFound)
  | some l =>
      let res := activateL l hw now
      let s2 := if res.1 = l then s else updateLicense s l.id res.1
      (appendRecord s2 (mkRecord l.id .activation res.2 ip hw now), res.2)

/-- Modelled from the spec (section 4.4): the Validation Service.  An
unresolvable key returns the generic error and writes nothing; a resolved
call never writes the license row and appends exactly one audit record. -/
def Validate (s : Store) (key hw ip : String) (kind : VType) (now : Nat) :
    Store × Except LicenseError Payload :=
  match findLicense s key with
  | none => (s, .error .NotFound)
  | some l =>
      let out := validateL l hw now
      (appendRecord s (mkRecord l.id kind out ip hw now), out)

/-- Modelled from the spec (section 4.2): admin suspend, guarded on
`active`; no effect on the hardware binding. -/
def adminSuspendL (l : License) : License :=
  if l.status = .active then { l with status := .suspended } else l

/-- Modelled from the spec (section 4.2): admin reactivate, guarded on
`suspended`; no effect on the hardware binding. -/
def adminReactivateL (l : License) : License :=
  if l.status = .suspended then { l with status := .active } else l

/-- Modelled from the spec (section 4.2): admin revoke — permitted from
any non-revoked status, permanent. -/
def adminRevokeL (l : License) : License :=
  if l.status = .revoked then l else { l with status := .revoked }

/-- Modelled from the spec (section 6): the explicit hardware-reset hook
clears `hardware_id` and returns status to `pending`; `revoked` admits no
transition out, by any path, including admin override (section 4.2). -/
def adminResetL (l : License) : License :=
  if l.status = .revoked then l
  else { l with status := .pending, hardware_id := none }

/-- The operations that may touch a single license row over its life. -/
inductive LOp
  | act (hw : String) (now : Nat)
  | val (hw : String) (now : Nat)
  | susp
  | react
  | revoke
  | reset
deriving DecidableEq, Repr

/-- Effect of one operation on a single license row. -/
def stepL (l : License) : LOp → License
  | .act hw now => (activateL l hw now).1
  | .val _ _ => l
  | .susp => adminSuspendL l
  | .react => adminReactivateL l
  | .revoke => adminRevokeL l
  | .reset => adminResetL l

/-- Run a sequence of operations on a single license row. -/
def runOps (l : License) : List LOp → License
  | [] => l
  | op :: ops => runOps (stepL l op) ops

/-- Whether a status value reads `active`. -/
def statusIsActive : Status → Bool
  | .active => true
  | _ => false

/-- Whether the status reads `active` at some point along the trace
(before or after any step). -/
def everActive (l : License) : List LOp → Bool
  | [] => statusIsActive l.status
  | op :: ops => statusIsActive l.status || everActive (stepL l op) ops

/-- Newest-first order on audit rows: `a` precedes `b` when `a` was
created no earlier than `b`. -/
def newestFirst (a b : ValidationRecord) : Prop :=
  b.created_at ≤ a.created_at

instance : DecidableRel newestFirst := fun _ _ => Nat.decLe _ _

instance : IsTotal ValidationRecord newestFirst :=
  ⟨fun a b => Nat.le_total b.created_at a.created_at⟩

instance : IsTrans ValidationRecord newestFirst :=
  ⟨fun _ _ _ h1 h2 => Nat.le_trans h2 h1⟩

/-- Modelled from the spec (section 6): the per-license query behind
`GET /licenses/:id/validations` — the license's records ordered by
`created_at` descending. -/
def validationsFor (s : Store) (lid : Nat) : List ValidationRecord :=
  (s.records.filter (fun r => r.license_id = lid)).insertionSort newestFirst

/-- From src/frontend/src/pages/Validations.jsx lines 37 to 56: the admin
view concatenates the per-license query results and then sorts the merged
list by `created_at`, newest first. -/
def adminMergedView (s : Store) (lids : List Nat) : List ValidationRecord :=
  ((lids.map (fun lid => validationsFor s lid)).flatten).insertionSort newestFirst

/-- The admin actions the Licenses page can offer on a row. -/
inductive AdminAction
  | suspend
  | reactivate
  | revoke
deriving DecidableEq, Repr

/-- From src/frontend/src/pages/Licenses.jsx lines 319 to 348: Suspend is
rendered when the status is exactly `active`, Reactivate when it is
exactly `suspended`, Revoke when it is not `revoked`. -/
def offeredActions (st : Status) : List AdminAction :=
  (if st = .active then [AdminAction.suspend] else []) ++
  (if st = .suspended then [AdminAction.reactivate] else []) ++
  (if st = .revoked then [] else [AdminAction.revoke])

/-- Apply an admin action to a license row via the state machine. -/
def applyAdmin (a : AdminAction) (l : License) : License :=
  match a with
  | .suspend => adminSuspendL l
  | .reactivate => adminReactivateL l
  | .revoke => adminRevokeL l

/-- An HTTP endpoint as published to clients. -/
structure Endpoint where
  method : String
  path : String
deriving DecidableEq, Repr

/-- From src/frontend/src/pages/Settings.jsx lines 188 to 193: the API
endpoint list published in the admin panel. -/
def publishedEndpoints : List Endpoint :=
  [ { method := "POST", path := "/api/v1/activate" },
    { method := "POST", path := "/api/v1/validate" },
    { method := "GET", path := "/api/v1/public-key" },
    { method := "GET", path := "/api/v1/health" } ]

/-- From src/Dockerfile lines 40 to 41: the container HEALTHCHECK command
probes this URL. -/
def dockerHealthcheckUrl : String := "http://localhost:8080/health"

/-- The path component of the container health check probe. -/
def dockerHealthcheckPath : String := "/health"

/-- The binding invariant carried through every per-license trace: the
hardware binding and the activation timestamp are set together, and an
`active` or `suspended` row is always bound. -/
def BindInv (l : License) : Prop :=
  l.hardware_id.isSome = l.activated_at.isSome ∧
  ((l.status = .active ∨ l.status = .suspended) → l.hardware_id.isSome = true)

/-- Fixture: a pending license whose expiry is already in the past. -/
def pendingExpiredLicense : License :=
  mkLicense 1 "KEXP" 7 .professional 0 (some 0) ""

/-- Fixture: a store holding only `pendingExpiredLicense`. -/
def pendingExpiredStore : Store :=
  { licenses := [pendingExpiredLicense], records := [] }

/-- Fixture: a fresh pending license expiring at time 100. -/
def freshLicense : License :=
  mkLicense 2 "KFR" 8 .enterprise 0 (some 100) ""

/-- Fixture: `freshLicense` after a successful activation at time 5. -/
def activatedFresh : License :=
  { freshLicense with
    status := .active, hardware_id := some "HW-2", activated_at := some 5 }

/-- Fixture: a revoked license that had been activated earlier. -/
def revokedLicense : License :=
  { (mkLicense 3 "KRV" 9 .starter 0 none "") with
    status := .revoked, hardware_id := some "HW-3", activated_at := some 2 }

/-- Fixture: a store holding only `revokedLicense`. -/
def revokedStore : Store :=
  { licenses := [revokedLicense], records := [] }

/-- Fixture: an active license bound to hardware identity HW-4. -/
def boundLicense : License :=
  { (mkLicense 4 "KBD" 10 .unlimited 0 none "") with
    status := .active, hardware_id := some "HW-4", activated_at := some 3 }

/-- Fixture: a store holding only `boundLicense`. -/
def boundStore : Store :=
  { licenses := [boundLicense], records := [] }

/-- Fixture: a license whose stored status still reads `active` although
its expiry (time 10) has passed. -/
def staleActiveLicense : License :=
  { (mkLicense 5 "KST" 11 .professional 0 (some 10) "") with
    status := .active, hardware_id := some "HW-5", activated_at := some 4 }

/-- Fixture: a store holding only `staleActiveLicense`. -/
def staleActiveStore : Store :=
  { licenses := [staleActiveLicense], records := [] }

/-- Fixture: a per-license trace used to witness the binding invariant. -/
def wOps : List LOp :=
  [LOp.act "HW-6" 1, LOp.val "HW-6" 2, LOp.susp, LOp.react, LOp.revoke]

/-- Fixture: a store with audit rows for two licenses, appended out of
creation order. -/
def recStore : Store :=
  { licenses := [boundLicense],
    records :=
      [ { license_id := 4, validation_type := .activation, success := true,
          error_message := none, ip_address := "10.0.0.1",
          hardware_id := "HW-4", created_at := 3 },
        { license_id := 6, validation_type := .heartbeat, success := false,
          error_message := some "hardware mismatch", ip_address := "10.0.0.2",
          hardware_id := "HW-9", created_at := 8 },
        { license_id := 4, validation_type := .heartbeat, success := true,
          error_message := none, ip_address := "10.0.0.1",
          hardware_id := "HW-4", created_at := 6 } ] }

/-! ## Helper lemmas on the derived status -/

theorem status_of_effective (l : License) (now : Nat) (st : Status)
    (h : effectiveStatus l now = st) (hne : st ≠ .expired) : l.status = st := by
  unfold effectiveStatus at h
  split at h
  · exact absurd h.symm hne
  · exact h

theorem effectiveStatus_of_revoked (l : License) (now : Nat)
    (h : l.status = .revoked) : effectiveStatus l now = .revoked := by
  unfold effectiveStatus
  rw [if_neg]
  · exact h
  · rintro ⟨-, h2 | h2⟩ <;> rw [h] at h2 <;> cases h2

theorem effectiveStatus_of_expiredPast (l : License) (now : Nat)
    (hpast : isPast l.expires_at now = true)
    (hst : l.status = .active ∨ l.status = .suspended) :
    effectiveStatus l now = .expired := by
  unfold effectiveStatus
  rw [if_pos ⟨hpast, hst⟩]

theorem status_of_effective_expired (l : License) (now : Nat)
    (h : effectiveStatus l now = .expired) :
    l.status = .active ∨ l.status = .suspended ∨ l.status = .expired := by
  unfold effectiveStatus at h
  split at h
  · next hc =>
      rcases hc.2 with h1 | h1
      · exact Or.inl h1
      · exact Or.inr (Or.inl h1)
  · exact Or.inr (Or.inr h)

theorem effective_active_iff (l : License) (now : Nat) :
    effectiveStatus l now = .active ↔
      (l.status = .active ∧ isPast l.expires_at now = false) := by
  unfold effectiveStatus
  split
  · next hc =>
    constructor
    · intro h; cases h
    · rintro ⟨-, hp⟩; rw [hc.1] at hp; cases hp
  · next hc =>
    constructor
    · intro h
      refine ⟨h, ?_⟩
      by_cases hp : isPast l.expires_at now = true
      · exact absurd ⟨hp, Or.inl h⟩ hc
      · simpa using hp
    · exact fun hh => hh.1

/-! ## Claim theorems -/

/-- Claim C1: once a license is revoked, neither activation nor
validation ever succeeds, for any hardware id, caller ip, record kind or
time; neither call writes the license rows; and no admin operation
(suspend, reactivate, revoke again, hardware reset) moves the row out of
`revoked` — the effective status also always reads `revoked`. -/
theorem revoked_is_terminal (s : Store) (key hw ip : String) (now : Nat)
    (kind : VType) (l : License)
    (hfind : findLicense s key = some l) (hrev : l.status = .revoked) :
    (Activate s key hw ip now).2 = .error .Revoked ∧
    (Validate s key hw ip kind now).2 = .error .Revoked ∧
    ((Activate s key hw ip now).1).licenses = s.licenses ∧
    ((Validate s key hw ip kind now).1).licenses = s.licenses ∧
    adminSuspendL l = l ∧ adminReactivateL l = l ∧ adminRevokeL l = l ∧
    adminResetL l = l ∧ effectiveStatus l now = .revoked := by
  have heff : effectiveStatus l now = .revoked := effectiveStatus_of_revoked l now hrev
  have hact : activateL l hw now = (l, .error .Revoked) := by
    unfold activateL
    rw [heff]
  have hval : validateL l hw now = .error .Revoked := by
    unfold validateL
    rw [heff]
  refine ⟨?_, ?_, ?_, ?_, ?_, ?_, ?_, ?_, heff⟩
  · simp [Activate, hfind, hact]
  · simp [Validate, hfind, hval]
  · simp [Activate, hfind, hact, appendRecord]
  · simp [Validate, hfind, appendRecord]
  · unfold adminSuspendL; rw [if_neg]; rw [hrev]; intro h; cases h
  · unfold adminReactivateL; rw [if_neg]; rw [hrev]; intro h; cases h
  · unfold adminRevokeL; rw [if_pos hrev]
  · unfold adminResetL; rw [if_pos hrev]

/-- Claim C1 witness: a concrete revoked license rejects activation and
validation and is untouched by every admin operation. -/
theorem revoked_is_terminal_witness :
    (Activate revokedStore "KRV" "HW-9" "ip" 5).2 = .error .Revoked ∧
    (Validate revokedStore "KRV" "HW-9" "ip" .heartbeat 5).2 = .error .Revoked ∧
    ((Activate revokedStore "KRV" "HW-9" "ip" 5).1).licenses = revokedStore.licenses ∧
    ((Validate revokedStore "KRV" "HW-9" "ip" .heartbeat 5).1).licenses
        = revokedStore.licenses ∧
    adminSuspendL revokedLicense = revokedLicense ∧
    adminReactivateL revokedLicense = revokedLicense ∧
    adminRevokeL revokedLicense = revokedLicense ∧
    adminResetL revokedLicense = revokedLicense ∧
    effectiveStatus revokedLicense 5 = .revoked :=
  revoked_is_terminal revokedStore "KRV" "HW-9" "ip" 5 .heartbeat revokedLicense
    (by decide) (by decide)

/-- Claim C2 counterexample: a license whose `expires_at` is already in
the past still has effective status `pending` (the derived-expiry rule
covers only stored `active`/`suspended`), so the first `Activate`
succeeds — but the identical retry then sees derived status `expired`
and fails, so activation is not idempotent as claimed. -/
theorem activate_idempotency_cex :
    outcomeSuccess (Activate pendingExpiredStore "KEXP" "HW-1" "ip" 1).2 = true ∧
    (Activate ((Activate pendingExpiredStore "KEXP" "HW-1" "ip" 1).1)
        "KEXP" "HW-1" "ip" 1).2 = .error .Expired := by
  constructor
  · decide
  · decide

/-- Claim C2 amended: if an `Activate` call succeeds and the license is
not past expiry at the time of the retry, then repeating the call with
the same license key and hardware id succeeds again, returns the same
canonical payload, and leaves the license row exactly as the first call
left it (same `hardware_id`, same `activated_at`). -/
theorem activate_retry_idempotent (l l1 : License) (hw : String) (t1 t2 : Nat)
    (p : Payload)
    (h1 : activateL l hw t1 = (l1, .ok p))
    (hexp : isPast l1.expires_at t2 = false) :
    activateL l1 hw t2 = (l1, .ok p) ∧
    l1.hardware_id = some hw ∧
    p = canonicalPayload l1 hw := by
  unfold activateL at h1
  rcases heff : effectiveStatus l t1 with h | h | h | h | h <;> rw [heff] at h1
  case pending =>
    simp only [Prod.mk.injEq, Except.ok.injEq] at h1
    obtain ⟨hl1, hp⟩ := h1
    have hst : l1.status = .active := by rw [← hl1]
    have hhw : l1.hardware_id = some hw := by rw [← hl1]
    have heff2 : effectiveStatus l1 t2 = .active :=
      (effective_active_iff l1 t2).mpr ⟨hst, hexp⟩
    have hp2 : p = canonicalPayload l1 hw := by rw [← hl1]; exact hp.symm
    exact ⟨by simp [activateL, heff2, hhw, hp2], hhw, hp2⟩
  case active =>
    by_cases hhw : l.hardware_id = some hw
    · rw [if_pos hhw] at h1
      simp only [Prod.mk.injEq, Except.ok.injEq] at h1
      obtain ⟨hl1, hp⟩ := h1
      have hst : l.status = .active :=
        status_of_effective l t1 .active heff (by decide)
      have hhw1 : l1.hardware_id = some hw := hl1 ▸ hhw
      have heff2 : effectiveStatus l1 t2 = .active :=
        (effective_active_iff l1 t2).mpr ⟨hl1 ▸ hst, hexp⟩
      have hp2 : p = canonicalPayload l1 hw := by rw [← hl1]; exact hp.symm
      exact ⟨by simp [activateL, heff2, hhw1, hp2], hhw1, hp2⟩
    · rw [if_neg hhw] at h1
      simp at h1
  case suspended => simp at h1
  case revoked => simp at h1
  case expired => simp at h1

/-- Claim C2 amended witness: retrying the successful activation of the
fresh license at time 6 (before its expiry at 100) succeeds with the same
payload and the same row. -/
theorem activate_retry_idempotent_witness :
    activateL activatedFresh "HW-2" 6
        = (activatedFresh, .ok (canonicalPayload activatedFresh "HW-2")) ∧
    activatedFresh.hardware_id = some "HW-2" ∧
    canonicalPayload activatedFresh "HW-2" = canonicalPayload activatedFresh "HW-2" :=
  activate_retry_idempotent freshLicense activatedFresh "HW-2" 5 6
    (canonicalPayload activatedFresh "HW-2") (by decide) (by decide)

/-- Claim C3: activating an effectively `active` license whose bound
hardware identity differs from the supplied one always fails with the
distinct `AlreadyActivatedElsewhere` error, returns the license row
completely unchanged, and writes nothing to the license rows (no silent
re-binding). -/
theorem no_silent_rebind (s : Store) (key hw ip bound : String) (now : Nat)
    (l : License)
    (hfind : findLicense s key = some l)
    (heff : effectiveStatus l now = .active)
    (hbound : l.hardware_id = some bound)
    (hne : hw ≠ bound) :
    (Activate s key hw ip now).2 = .error .AlreadyActivatedElsewhere ∧
    activateL l hw now = (l, .error .AlreadyActivatedElsewhere) ∧
    ((Activate s key hw ip now).1).licenses = s.licenses := by
  have hmis : ¬ l.hardware_id = some hw := by
    rw [hbound]
    intro hh
    exact hne (Option.some.injEq bound hw ▸ hh).symm
  have hact : activateL l hw now = (l, .error .AlreadyActivatedElsewhere) := by
    unfold activateL
    rw [heff, if_neg hmis]
  refine ⟨?_, hact, ?_⟩
  · simp [Activate, hfind, hact]
  · simp [Activate, hfind, hact, appendRecord]

/-- Claim C3 witness: activating the HW-4-bound license with HW-7 fails
with `AlreadyActivatedElsewhere` and changes no license row. -/
theorem no_silent_rebind_witness :
    (Activate boundStore "KBD" "HW-7" "ip" 5).2 = .error .AlreadyActivatedElsewhere ∧
    activateL boundLicense "HW-7" 5 = (boundLicense, .error .AlreadyActivatedElsewhere) ∧
    ((Activate boundStore "KBD" "HW-7" "ip" 5).1).licenses = boundStore.licenses :=
  no_silent_rebind boundStore "KBD" "HW-7" "ip" "HW-4" 5 boundLicense
    (by decide) (by decide) (by decide) (by decide)

/-- Claim C4: validating a license whose `expires_at` is in the past
returns the `Expired` error although the stored status still reads
`active` or `suspended`, and the stored rows are left untouched —
expiry is derived on read, never written. -/
theorem validate_expired_derived (s : Store) (key hw ip : String) (kind : VType)
    (now : Nat) (l : License)
    (hfind : findLicense s key = some l)
    (hpast : isPast l.expires_at now = true)
    (hst : l.status = .active ∨ l.status = .suspended) :
    (Validate s key hw ip kind now).2 = .error .Expired ∧
    ((Validate s key hw ip kind now).1).licenses = s.licenses := by
  have heff : effectiveStatus l now = .expired :=
    effectiveStatus_of_expiredPast l now hpast hst
  have hval : validateL l hw now = .error .Expired := by
    unfold validateL
    rw [heff]
  constructor
  · simp [Validate, hfind, hval]
  · simp [Validate, hfind, appendRecord]

/-- Claim C4 witness: at time 20 the stale license (stored status
`active`, expiry 10) fails validation with `Expired`, the rows
unchanged. -/
theorem validate_expired_derived_witness :
    (Validate staleActiveStore "KST" "HW-5" "ip" .heartbeat 20).2 = .error .Expired ∧
    ((Validate staleActiveStore "KST" "HW-5" "ip" .heartbeat 20).1).licenses
        = staleActiveStore.licenses :=
  validate_expired_derived staleActiveStore "KST" "HW-5" "ip" .heartbeat 20
    staleActiveLicense (by decide) (by decide) (Or.inl (by decide))

/-- Claim C5: a call that resolves a known license appends exactly one
new ValidationRecord — whose success flag is the call outcome and whose
error message is present exactly when the call failed — while a call on
an unknown key appends nothing and returns the generic `NotFound`
("invalid license") error, for `Activate` and `Validate` alike. -/
theorem audit_record_per_call (s : Store) (key hw ip : String) (kind : VType)
    (now : Nat) :
    ((Activate s key hw ip now).1).records
        = s.records ++ (match findLicense s key with
          | some l => [mkRecord l.id .activation (Activate s key hw ip now).2 ip hw now]
          | none => []) ∧
    ((Validate s key hw ip kind now).1).records
        = s.records ++ (match findLicense s key with
          | some l => [mkRecord l.id kind (Validate s key hw ip kind now).2 ip hw now]
          | none => []) ∧
    (findLicense s key = none →
        Activate s key hw ip now = (s, .error .NotFound) ∧
        Validate s key hw ip kind now = (s, .error .NotFound)) ∧
    (∀ out : Except LicenseError Payload,
        (mkRecord 0 kind out ip hw now).success = outcomeSuccess out ∧
        ((mkRecord 0 kind out ip hw now).error_message).isSome
            = !(mkRecord 0 kind out ip hw now).success) := by
  refine ⟨?_, ?_, ?_, ?_⟩
  · rcases hfind : findLicense s key with - | l
    · simp [Activate, hfind]
    · simp only [Activate, hfind, appendRecord]
      split <;> rfl
  · rcases hfind : findLicense s key with - | l
    · simp [Validate, hfind]
    · simp [Validate, hfind, appendRecord]
  · intro hfind
    constructor
    · simp [Activate, hfind]
    · simp [Validate, hfind]
  · intro out
    rcases out with p | e
    · exact ⟨rfl, rfl⟩
    · exact ⟨rfl, rfl⟩

/-! ## Helper lemmas for the binding invariant -/

theorem statusIsActive_eq_false {st : Status} (h : st ≠ Status.active) :
    statusIsActive st = false := by
  cases st
  · rfl
  · exact absurd rfl h
  · rfl
  · rfl
  · rfl

theorem everActive_of_active (l : License) (ops : List LOp)
    (h : l.status = .active) : everActive l ops = true := by
  cases ops <;> simp [everActive, statusIsActive, h]

theorem stepL_binding (l : License) (op : LOp) (hop : op ≠ LOp.reset)
    (hinv : BindInv l) :
    BindInv (stepL l op) ∧
    ∀ b : Bool, ((stepL l op).status = .active → b = true) →
      ((stepL l op).hardware_id.isSome || b)
        = (l.hardware_id.isSome || (statusIsActive l.status || b)) := by
  obtain ⟨heq, hact⟩ := hinv
  cases op with
  | reset => exact absurd rfl hop
  | val hw now =>
      refine ⟨⟨heq, hact⟩, ?_⟩
      intro b hb
      rcases hs : l.status with - | - | - | - | -
      · simp [stepL, statusIsActive]
      · have hhw := hact (Or.inl hs)
        have hb2 : b = true := hb (by simpa [stepL] using hs)
        simp [stepL, statusIsActive, hhw, hb2]
      · simp [stepL, statusIsActive]
      · simp [stepL, statusIsActive]
      · simp [stepL, statusIsActive]
  | act hw now =>
      rcases heff : effectiveStatus l now with - | - | - | - | -
      · -- effective pending: the activation succeeds and binds
        have hs : l.status = .pending :=
          status_of_effective l now .pending heff (by decide)
        have hstep : stepL l (.act hw now)
            = { l with
                status := .active, hardware_id := some hw,
                activated_at := some now } := by
          simp [stepL, activateL, heff]
        refine ⟨?_, ?_⟩
        · rw [hstep]
          exact ⟨rfl, fun _ => rfl⟩
        · intro b hb
          have hb2 : b = true := hb (by rw [hstep])
          rw [hstep, hb2, hs]
          simp [statusIsActive]
      · -- effective active: both activation branches leave the row as is
        have hs : l.status = .active :=
          status_of_effective l now .active heff (by decide)
        have hhw : l.hardware_id.isSome = true := hact (Or.inl hs)
        have hstep : stepL l (.act hw now) = l := by
          by_cases hm : l.hardware_id = some hw <;>
            simp [stepL, activateL, heff, hm]
        refine ⟨?_, ?_⟩
        · rw [hstep]; exact ⟨heq, hact⟩
        · intro b hb
          rw [hstep, hs]
          simp [statusIsActive, hhw]
      · -- effective suspended: rejection, row unchanged
        have hs : l.status = .suspended :=
          status_of_effective l now .suspended heff (by decide)
        have hstep : stepL l (.act hw now) = l := by
          simp [stepL, activateL, heff]
        refine ⟨by rw [hstep]; exact ⟨heq, hact⟩, ?_⟩
        intro b hb
        rw [hstep, hs]
        simp [statusIsActive]
      · -- effective revoked: rejection, row unchanged
        have hs : l.status = .revoked :=
          status_of_effective l now .revoked heff (by decide)
        have hstep : stepL l (.act hw now) = l := by
          simp [stepL, activateL, heff]
        refine ⟨by rw [hstep]; exact ⟨heq, hact⟩, ?_⟩
        intro b hb
        rw [hstep, hs]
        simp [statusIsActive]
      · -- effective expired: rejection, row unchanged
        have hstep : stepL l (.act hw now) = l := by
          simp [stepL, activateL, heff]
        refine ⟨by rw [hstep]; exact ⟨heq, hact⟩, ?_⟩
        intro b hb
        rw [hstep]
        rcases status_of_effective_expired l now heff with hs | hs | hs
        · have hhw := hact (Or.inl hs)
          rw [hs]
          simp [statusIsActive, hhw]
        · rw [hs]
          simp [statusIsActive]
        · rw [hs]
          simp [statusIsActive]
  | susp =>
      rcases hs : l.status with - | - | - | - | -
      · have hstep : stepL l .susp = l := by simp [stepL, adminSuspendL, hs]
        refine ⟨by rw [hstep]; exact ⟨heq, hact⟩, ?_⟩
        intro b hb
        rw [hstep]
        simp [statusIsActive]
      · have hhw := hact (Or.inl hs)
        have hstep : stepL l .susp = { l with status := .suspended } := by
          simp [stepL, adminSuspendL, hs]
        refine ⟨?_, ?_⟩
        · rw [hstep]
          exact ⟨heq, fun _ => hhw⟩
        · intro b hb
          rw [hstep]
          simp [statusIsActive, hhw]
      · have hstep : stepL l .susp = l := by simp [stepL, adminSuspendL, hs]
        refine ⟨by rw [hstep]; exact ⟨heq, hact⟩, ?_⟩
        intro b hb
        rw [hstep]
        simp [statusIsActive]
      · have hstep : stepL l .susp = l := by simp [stepL, adminSuspendL, hs]
        refine ⟨by rw [hstep]; exact ⟨heq, hact⟩, ?_⟩
        intro b hb
        rw [hstep]
        simp [statusIsActive]
      · have hstep : stepL l .susp = l := by simp [stepL, adminSuspendL, hs]
        refine ⟨by rw [hstep]; exact ⟨heq, hact⟩, ?_⟩
        intro b hb
        rw [hstep]
        simp [statusIsActive]
  | react =>
      rcases hs : l.status with - | - | - | - | -
      · have hstep : stepL l .react = l := by simp [stepL, adminReactivateL, hs]
        refine ⟨by rw [hstep]; exact ⟨heq, hact⟩, ?_⟩
        intro b hb
        rw [hstep]
        simp [statusIsActive]
      · have hhw := hact (Or.inl hs)
        have hstep : stepL l .react = l := by simp [stepL, adminReactivateL, hs]
        refine ⟨by rw [hstep]; exact ⟨heq, hact⟩, ?_⟩
        intro b hb
        have hb2 : b = true := hb (by rw [hstep]; exact hs)
        rw [hstep, hb2]
        simp [statusIsActive, hhw]
      · have hhw := hact (Or.inr hs)
        have hstep : stepL l .react = { l with status := .active } := by
          simp [stepL, adminReactivateL, hs]
        refine ⟨?_, ?_⟩
        · rw [hstep]
          exact ⟨heq, fun _ => hhw⟩
        · intro b hb
          have hb2 : b = true := hb (by rw [hstep])
          rw [hstep, hb2]
          simp [statusIsActive, hhw]
      · have hstep : stepL l .react = l := by simp [stepL, adminReactivateL, hs]
        refine ⟨by rw [hstep]; exact ⟨heq, hact⟩, ?_⟩
        intro b hb
        rw [hstep]
        simp [statusIsActive]
      · have hstep : stepL l .react = l := by simp [stepL, adminReactivateL, hs]
        refine ⟨by rw [hstep]; exact ⟨heq, hact⟩, ?_⟩
        intro b hb
        rw [hstep]
        simp [statusIsActive]
  | revoke =>
      rcases hs : l.status with - | - | - | - | -
      · have hstep : stepL l .revoke = { l with status := .revoked } := by
          simp [stepL, adminRevokeL, hs]
        refine ⟨?_, ?_⟩
        · rw [hstep]
          exact ⟨heq, fun hcc => hcc.elim (fun h => by cases h) (fun h => by cases h)⟩
        · intro b hb
          rw [hstep]
          simp [statusIsActive]
      · have hhw := hact (Or.inl hs)
        have hstep : stepL l .revoke = { l with status := .revoked } := by
          simp [stepL, adminRevokeL, hs]
        refine ⟨?_, ?_⟩
        · rw [hstep]
          exact ⟨heq, fun hcc => hcc.elim (fun h => by cases h) (fun h => by cases h)⟩
        · intro b hb
          rw [hstep]
          simp [statusIsActive, hhw]
      · have hhw := hact (Or.inr hs)
        have hstep : stepL l .revoke = { l with status := .revoked } := by
          simp [stepL, adminRevokeL, hs]
        refine ⟨?_, ?_⟩
        · rw [hstep]
          exact ⟨heq, fun hcc => hcc.elim (fun h => by cases h) (fun h => by cases h)⟩
        · intro b hb
          rw [hstep]
          simp [statusIsActive, hhw]
      · have hstep : stepL l .revoke = l := by simp [stepL, adminRevokeL, hs]
        refine ⟨by rw [hstep]; exact ⟨heq, hact⟩, ?_⟩
        intro b hb
        rw [hstep]
        simp [statusIsActive]
      · have hstep : stepL l .revoke = { l with status := .revoked } := by
          simp [stepL, adminRevokeL, hs]
        refine ⟨?_, ?_⟩
        · rw [hstep]
          exact ⟨heq, fun hcc => hcc.elim (fun h => by cases h) (fun h => by cases h)⟩
        · intro b hb
          rw [hstep]
          simp [statusIsActive]

theorem runOps_binding_aux : ∀ (ops : List LOp) (l : License),
    LOp.reset ∉ ops → BindInv l →
    (runOps l ops).hardware_id.isSome
        = (l.hardware_id.isSome || everActive l ops) ∧
    BindInv (runOps l ops)
  | [], l, _, hinv => by
      refine ⟨?_, hinv⟩
      by_cases hs : l.status = .active
      · simp [runOps, everActive, statusIsActive, hs, hinv.2 (Or.inl hs)]
      · simp [runOps, everActive, statusIsActive_eq_false hs]
  | op :: ops, l, hnr, hinv => by
      have hop : op ≠ LOp.reset := by
        intro hh
        exact hnr (hh ▸ List.mem_cons_self _ _)
      have hnr2 : LOp.reset ∉ ops := fun hh => hnr (List.mem_cons_of_mem _ hh)
      obtain ⟨hinv2, hcomb⟩ := stepL_binding l op hop hinv
      obtain ⟨ih1, ih2⟩ := runOps_binding_aux ops (stepL l op) hnr2 hinv2
      refine ⟨?_, ih2⟩
      show (runOps (stepL l op) ops).hardware_id.isSome = _
      rw [ih1]
      have hEA : everActive l (op :: ops)
          = (statusIsActive l.status || everActive (stepL l op) ops) := rfl
      rw [hEA]
      exact hcomb (everActive (stepL l op) ops)
        (fun hs => everActive_of_active _ ops hs)

/-- Claim C6: over any per-license trace of activation, validation and
admin operations that avoids the explicit hardware-reset hook, a license
created in `pending` ends with a non-null `hardware_id` exactly when its
status has read `active` at some point of the trace, and with a non-null
`activated_at` under exactly the same condition. -/
theorem hardware_binding_invariant (id client issued : Nat) (key notes : String)
    (plan : Plan) (expires : Option Nat) (ops : List LOp)
    (hnr : LOp.reset ∉ ops) :
    (runOps (mkLicense id key client plan issued expires notes) ops).hardware_id.isSome
        = everActive (mkLicense id key client plan issued expires notes) ops ∧
    (runOps (mkLicense id key client plan issued expires notes) ops).activated_at.isSome
        = everActive (mkLicense id key client plan issued expires notes) ops := by
  have hinv : BindInv (mkLicense id key client plan issued expires notes) := by
    refine ⟨rfl, ?_⟩
    rintro (h | h) <;> simp [mkLicense] at h
  obtain ⟨h1, h2⟩ := runOps_binding_aux ops _ hnr hinv
  have h1s : (runOps (mkLicense id key client plan issued expires notes) ops).hardware_id.isSome
      = everActive (mkLicense id key client plan issued expires notes) ops := by
    simpa [mkLicense] using h1
  refine ⟨h1s, ?_⟩
  rw [← h2.1]
  exact h1s

/-- Claim C6 witness: a concrete reset-free trace — activate, validate,
suspend, reactivate, revoke — on a freshly created license. -/
theorem hardware_binding_invariant_witness :
    (runOps (mkLicense 6 "KW" 12 .starter 0 none "") wOps).hardware_id.isSome
        = everActive (mkLicense 6 "KW" 12 .starter 0 none "") wOps ∧
    (runOps (mkLicense 6 "KW" 12 .starter 0 none "") wOps).activated_at.isSome
        = everActive (mkLicense 6 "KW" 12 .starter 0 none "") wOps :=
  hardware_binding_invariant 6 12 0 "KW" "" .starter none wOps (by decide)

/-- Claim C8: the per-license validations query returns only rows of the
requested license, ordered by `created_at` newest first; the admin
validations view, which merges the per-license results and re-sorts,
is itself ordered newest first and holds exactly the merged rows. -/
theorem validations_query_ordered (s : Store) (lid : Nat) (lids : List Nat) :
    (∀ r ∈ validationsFor s lid, r.license_id = lid) ∧
    (validationsFor s lid).Sorted newestFirst ∧
    (adminMergedView s lids).Sorted newestFirst ∧
    (adminMergedView s lids).Perm
      ((lids.map (fun i => validationsFor s i)).flatten) := by
  refine ⟨?_, ?_, ?_, ?_⟩
  · intro r hr
    have hmem : r ∈ s.records.filter (fun x => x.license_id = lid) :=
      (List.perm_insertionSort newestFirst _).mem_iff.mp hr
    have := List.of_mem_filter hmem
    simpa using this
  · exact List.sorted_insertionSort _ _
  · exact List.sorted_insertionSort _ _
  · exact List.perm_insertionSort _ _

/-- Claim C8 witness: on the concrete store the query for license 4 and
the merged admin view over licenses 4 and 6 are ordered newest first. -/
theorem validations_query_ordered_witness :
    (∀ r ∈ validationsFor recStore 4, r.license_id = 4) ∧
    (validationsFor recStore 4).Sorted newestFirst ∧
    (adminMergedView recStore [4, 6]).Sorted newestFirst ∧
    (adminMergedView recStore [4, 6]).Perm
      (([4, 6].map (fun i => validationsFor recStore i)).flatten) :=
  validations_query_ordered recStore 4 [4, 6]

/-- Claim C9 counterexample: the container HEALTHCHECK in the Dockerfile
probes the path `/health` on port 8080, which is not the published path
`/api/v1/health`, refuting the claim that every deployment surface,
including the container health check, uses `/api/v1/health`. -/
theorem healthcheck_path_cex :
    dockerHealthcheckPath ≠ "/api/v1/health" ∧
    dockerHealthcheckUrl = "http://localhost:8080" ++ dockerHealthcheckPath := by
  constructor
  · decide
  · rfl

/-- Claim C9 amended: the health endpoint published to clients is
`GET /api/v1/health` (admin Settings endpoint list), while the container
HEALTHCHECK probes the distinct path `/health` on port 8080. -/
theorem health_endpoint_published :
    (⟨"GET", "/api/v1/health"⟩ : Endpoint) ∈ publishedEndpoints ∧
    dockerHealthcheckPath = "/health" ∧
    dockerHealthcheckUrl = "http://localhost:8080" ++ dockerHealthcheckPath := by
  refine ⟨?_, rfl, rfl⟩
  decide

/-- Claim C10: for every license row, the Licenses page offers Suspend,
Reactivate and Revoke exactly on the statuses where the corresponding
admin transition of the state machine actually moves the license, and it
offers no action at all on a revoked license. -/
theorem admin_ui_offers_state_machine (l : License) :
    (AdminAction.suspend ∈ offeredActions l.status ↔ applyAdmin .suspend l ≠ l) ∧
    (AdminAction.reactivate ∈ offeredActions l.status ↔ applyAdmin .reactivate l ≠ l) ∧
    (AdminAction.revoke ∈ offeredActions l.status ↔ applyAdmin .revoke l ≠ l) ∧
    (l.status = .revoked → offeredActions l.status = []) := by
  have hset : ∀ st : Status, l.status ≠ st → ({ l with status := st } : License) ≠ l := by
    intro st h he
    exact h ((congrArg License.status he).symm)
  rcases hs : l.status with - | - | - | - | -
  · refine ⟨?_, ?_, ?_, ?_⟩
    · simp [offeredActions, applyAdmin, adminSuspendL, hs]
    · simp [offeredActions, applyAdmin, adminReactivateL, hs]
    · simp only [offeredActions, applyAdmin, adminRevokeL, hs]
      constructor
      · intro _
        exact hset .revoked (by rw [hs]; decide)
      · intro _
        decide
    · intro h
      cases h
  · refine ⟨?_, ?_, ?_, ?_⟩
    · simp only [offeredActions, applyAdmin, adminSuspendL, hs]
      constructor
      · intro _
        exact hset .suspended (by rw [hs]; decide)
      · intro _
        decide
    · simp [offeredActions, applyAdmin, adminReactivateL, hs]
    · simp only [offeredActions, applyAdmin, adminRevokeL, hs]
      constructor
      · intro _
        exact hset .revoked (by rw [hs]; decide)
      · intro _
        decide
    · intro h
      cases h
  · refine ⟨?_, ?_, ?_, ?_⟩
    · simp [offeredActions, applyAdmin, adminSuspendL, hs]
    · simp only [offeredActions, applyAdmin, adminReactivateL, hs]
      constructor
      · intro _
        exact hset .active (by rw [hs]; decide)
      · intro _
        decide
    · simp only [offeredActions, applyAdmin, adminRevokeL, hs]
      constructor
      · intro _
        exact hset .revoked (by rw [hs]; decide)
      · intro _
        decide
    · intro h
      cases h
  · refine ⟨?_, ?_, ?_, ?_⟩
    · simp [offeredActions, applyAdmin, adminSuspendL, hs]
    · simp [offeredActions, applyAdmin, adminReactivateL, hs]
    · simp [offeredActions, applyAdmin, adminRevokeL, hs]
    · intro _
      simp [offeredActions]
  · refine ⟨?_, ?_, ?_, ?_⟩
    · simp [offeredActions, applyAdmin, adminSuspendL, hs]
    · simp [offeredActions, applyAdmin, adminReactivateL, hs]
    · simp only [offeredActions, applyAdmin, adminRevokeL, hs]
      constructor
      · intro _
        exact hset .revoked (by rw [hs]; decide)
      · intro _
        decide
    · intro h
      cases h

/-- Claim C10 witness: on the concrete active license the page offers
exactly the transitions the state machine permits. -/
theorem admin_ui_offers_state_machine_witness :
    (AdminAction.suspend ∈ offeredActions boundLicense.status
        ↔ applyAdmin .suspend boundLicense ≠ boundLicense) ∧
    (AdminAction.reactivate ∈ offeredActions boundLicense.status
        ↔ applyAdmin .reactivate boundLicense ≠ boundLicense) ∧
    (AdminAction.revoke ∈ offeredActions boundLicense.status
        ↔ applyAdmin .revoke boundLicense ≠ boundLicense) ∧
    (boundLicense.status = .revoked → offeredActions boundLicense.status = []) :=
  admin_ui_offers_state_machine boundLicense

end LicenseServer
